import Mathlib

/-
Verification of the vamship/aws-dynamodb data-access layer.

The development shallowly embeds the two source layers:
  * `src/entity.js` — the `Entity` base class (validation, key extraction,
    username resolution, client initialization, query execution), and
  * `src/simple-entity.js` — the `SimpleEntity` CRUD protocol
    (create / lookup / list / update / delete).

JavaScript values are modelled by the inductive type `JsVal`; JS objects
are association lists of string-keyed fields in insertion order, which is
the semantics `Object.assign` and `Object.keys` observe.  Stateful
behaviour is made explicit: every CRUD operation returns an `OpTrace`
listing the store requests it issued together with its resolution, with
the single outbound store outcome supplied as an explicit argument.
`Date.now()` and `shortid.generate()` are modelled as reading ambient
per-call values carried by `Env` (the two adjacent `Date.now()` reads in
one synchronous call body are modelled as one clock instant).

External collaborators that the source drives are modelled from their
contracts as exercised by this repository:
  * `@vamship/arg-utils` argValidator — `checkString` with its default
    minimum length of 1 (the repository test suite asserts that the empty
    string is an invalid hash key, range key, username and version) and
    `checkNumber` with its default minimum of 1 (the specification calls
    the bare `checkNumber(count)` test "a valid positive number");
    JS numbers are modelled as integers.
  * `selective-copy` — copies the whitelisted fields that are present on
    the source object, optionally transforming each copied value.
  * the `@awspilot/dynamodb` fluent client — a pure record accumulating
    table, where/if/having equality clauses, return-old flag, resume
    token and limit.
  * `aws-sdk` `DynamoDB.Converter.input(..).M` — an opaque tagging of the
    plain mapping into the native key encoding.
-/

namespace AwsDynamoDb

/-- Model of JavaScript runtime values. Arrays and functions are opaque
(tagged); `delMarker` is the store-native remove-attribute marker returned
by `client.del()`. -/
inductive JsVal where
  | undefined
  | null
  | boolV (b : Bool)
  | num (n : Int)
  | str (s : String)
  | obj (fields : List (String × JsVal))
  | arr (tag : Nat)
  | fnV (tag : Nat)
  | delMarker

/-- Whether a value is the JS `undefined`. -/
def JsVal.isUndefined : JsVal → Bool
  | .undefined => true
  | _ => false

/-- First-match lookup of a field in an object field list. Field lists
built by this development always have pairwise distinct keys, matching JS
object semantics. -/
def objLookup : List (String × JsVal) → String → Option JsVal
  | [], _ => none
  | (k, v) :: rest, key => if k = key then some v else objLookup rest key

/-- JS property read `v[key]` on an already-known object (or a primitive,
where the named properties used by this code are absent): absent fields
read as `undefined`. -/
def objGetD (v : JsVal) (key : String) : JsVal :=
  match v with
  | .obj fields => (objLookup fields key).getD .undefined
  | _ => .undefined

/-- Whether the object defines the field as an own property (JS `in` /
`Object.keys` membership; a field explicitly set to `undefined` is still
present). -/
def objHas (v : JsVal) (key : String) : Bool :=
  match v with
  | .obj fields => (objLookup fields key).isSome
  | _ => false

/-- JS property assignment `target[key] = value` on a field list:
overwrites in place if the key exists, else appends (insertion order). -/
def objSetF : List (String × JsVal) → String → JsVal → List (String × JsVal)
  | [], key, v => [(key, v)]
  | (k0, v0) :: rest, key, v =>
      if k0 = key then (k0, v) :: rest else (k0, v0) :: objSetF rest key v

/-- `Object.assign(target, src)` restricted to a literal source field
list: copies each source entry in order (including entries whose value is
`undefined`). -/
def objAssignL (target : List (String × JsVal)) : List (String × JsVal) → List (String × JsVal)
  | [] => target
  | (k, v) :: rest => objAssignL (objSetF target k v) rest

/-- The own enumerable fields of a value (`Object.assign` source view):
non-objects contribute nothing relevant here. -/
def objFields : JsVal → List (String × JsVal)
  | .obj fields => fields
  | _ => []

/-- `Object.assign(target, src)` for a `JsVal` source. -/
def objAssignV (target : List (String × JsVal)) (src : JsVal) : List (String × JsVal) :=
  objAssignL target (objFields src)

/-- JS property read that can raise `TypeError`: reading a property of
`undefined` or `null` throws; objects read their field; other primitives
read `undefined` for the names this code uses. -/
def jsGetProp : JsVal → String → Except String JsVal
  | .undefined, _ => .error "TypeError: cannot read properties of undefined"
  | .null, _ => .error "TypeError: cannot read properties of null"
  | .obj fields, key => .ok ((objLookup fields key).getD .undefined)
  | _, _ => .ok .undefined

/-! ### argValidator (`@vamship/arg-utils`), modelled from its contract

`checkString` and `checkNumber` take the minimum explicitly here; call
sites that omit it in JS pass the default `1`. Evidence for the defaults
inside this repository: the test suite adds the empty string to the
invalid inputs for hash key, range key and username, all validated by a
bare `checkString`, and the specification reads the bare
`checkNumber(count)` as "count is a valid positive number". -/

/-- argValidator.checkString: a string of at least the given length. -/
def checkString (v : JsVal) (minLength : Nat) : Bool :=
  match v with
  | .str s => minLength ≤ s.length
  | _ => false

/-- argValidator.checkNumber: a number that is at least the given minimum. -/
def checkNumber (v : JsVal) (min : Int) : Bool :=
  match v with
  | .num n => min ≤ n
  | _ => false

/-- argValidator.checkObject: a plain object (not null, not an array, not
a function). -/
def checkObject : JsVal → Bool
  | .obj _ => true
  | _ => false

/-- argValidator.checkFunction. -/
def checkFunction : JsVal → Bool
  | .fnV _ => true
  | _ => false

/-! ### Error taxonomy (`@vamship/error-types`) -/

/-- An error surfaced by the underlying store client: carries a
machine-readable `code` (for example `ConditionalCheckFailedException`)
plus a tag distinguishing otherwise identical errors, so that passing an
error through unchanged is expressible. -/
structure DynamoError where
  code : Option String
  tag : Nat
deriving DecidableEq

/-- The error kinds an operation can reject with: synchronous `ArgError`
validation failures, the two translated conditional-failure kinds, and an
untranslated store error. -/
inductive EntityError where
  | argError (message : String)
  | duplicateRecord
  | concurrencyControl
  | storeError (e : DynamoError)
deriving DecidableEq

/-- argValidator.checkObject with an error message: throws `ArgError` on
failure. -/
def checkObjectOrThrow (v : JsVal) (message : String) : Except EntityError Unit :=
  if checkObject v then .ok () else .error (.argError message)

/-- argValidator.checkString with an error message: throws `ArgError` on
failure. -/
def checkStringOrThrow (v : JsVal) (minLength : Nat) (message : String) : Except EntityError Unit :=
  if checkString v minLength then .ok () else .error (.argError message)

/-! ### selective-copy -/

/-- Model of `SelectiveCopy(fieldList).copy(src, dest, transform)`: copies
each whitelisted field that is present on the source into the destination
in whitelist order, replacing the value by the transform result when a
transform is supplied. -/
def selectiveCopy (fieldList : List String) (src : JsVal)
    (dest : List (String × JsVal)) (transform : Option JsVal) : List (String × JsVal) :=
  fieldList.foldl
    (fun acc f =>
      if objHas src f then
        objSetF acc f (match transform with | some m => m | none => objGetD src f)
      else acc)
    dest

/-! ### The fluent dynamodb client (`@awspilot/dynamodb`) -/

/-- The native key encoding produced by
`awsSdk.DynamoDB.Converter.input(mapping).M`, modelled as an opaque
tagging of the plain mapping. -/
structure DynamoKeyEncoding where
  attrMap : List (String × JsVal)

/-- `awsSdk.DynamoDB.Converter.input(mapping).M`. -/
def converterInputM (mapping : List (String × JsVal)) : DynamoKeyEncoding :=
  ⟨mapping⟩

/-- The state accumulated by the fluent client: the bound table, the
equality filters (`where`), conditional predicates (`if`), query
conditions (`having`), the return-previous-image flag
(`return(ALL_OLD)`), the pagination resume token and the page limit.
Clause field names are `JsVal` because the source passes property names
that may themselves be undefined. -/
structure DynamoClient where
  table : String
  whereClauses : List (JsVal × JsVal)
  ifClauses : List (JsVal × JsVal)
  havingClauses : List (JsVal × JsVal)
  allOld : Bool
  resumeToken : Option DynamoKeyEncoding
  limitCount : Option JsVal

/-- `dynamoDb(new awsSdk.DynamoDB(..)).table(name)`: a fresh client bound
to the table, with no clauses. -/
def DynamoClient.fresh (table : String) : DynamoClient :=
  ⟨table, [], [], [], false, none, none⟩

/-- `client.where(field).eq(value)`. -/
def DynamoClient.whereEq (c : DynamoClient) (field value : JsVal) : DynamoClient :=
  { c with whereClauses := c.whereClauses ++ [(field, value)] }

/-- `client.if(field).eq(value)`. -/
def DynamoClient.ifEq (c : DynamoClient) (field value : JsVal) : DynamoClient :=
  { c with ifClauses := c.ifClauses ++ [(field, value)] }

/-- `client.having(field).eq(value)`. -/
def DynamoClient.havingEq (c : DynamoClient) (field value : JsVal) : DynamoClient :=
  { c with havingClauses := c.havingClauses ++ [(field, value)] }

/-- `client.return(client.ALL_OLD)`: request the prior image. -/
def DynamoClient.returnAllOld (c : DynamoClient) : DynamoClient :=
  { c with allOld := true }

/-- `client.resume(token)`. -/
def DynamoClient.resumeWith (c : DynamoClient) (token : DynamoKeyEncoding) : DynamoClient :=
  { c with resumeToken := some token }

/-- `client.limit(count)`. -/
def DynamoClient.limitWith (c : DynamoClient) (count : JsVal) : DynamoClient :=
  { c with limitCount := some count }

/-- The five primitive store actions an operation can issue, each carrying
the fully configured client (and payload where applicable). -/
inductive StoreAction where
  | insert (client : DynamoClient) (payload : List (String × JsVal))
  | get (client : DynamoClient)
  | query (client : DynamoClient)
  | updateReq (client : DynamoClient) (payload : List (String × JsVal))
  | deleteReq (client : DynamoClient)

/-! ### Entity (src/entity.js) -/

/-- The per-table configuration a concrete subclass supplies through its
getter overrides: table name, hash key field name, optional range key
field name, and the field whitelists backing the update and delete
`SelectiveCopy` policies. -/
structure EntitySchema where
  tableName : String
  hashKeyName : String
  rangeKeyName : Option String
  updateFields : List String
  deleteFields : List String

/-- The logger held by a constructed entity: either the caller-provided
logger object or a default logger freshly created by
`logger.getLogger(..)` when the provided one was invalid. -/
inductive LoggerRef where
  | provided (logger : JsVal)
  | defaultLogger

/-- The state a constructed `Entity` holds: the schema plus the resolved
configuration values (`_username`, `_awsRegion`, `_awsCredentials`,
`__logger`). -/
structure EntityState where
  schema : EntitySchema
  username : JsVal
  awsRegion : JsVal
  awsCredentials : JsVal
  logger : LoggerRef

/-- The eight methods a valid logger object must expose. -/
def LOG_METHODS : List String :=
  ["trace", "debug", "info", "warn", "error", "fatal", "silent", "child"]

/-- The logger-validity reduce in the constructor:
`LOG_METHODS.reduce((r, m) => r && checkFunction(logger[m]), checkObject(logger))`.
The JS `&&` short-circuits, so `logger[m]` (which would throw a
`TypeError` on a nullish logger) is only read while the accumulator is
still true; the `Except` layer records exactly that hazard. -/
def loggerCheckFold (logger : JsVal) : List String → Bool → Except String Bool
  | [], acc => .ok acc
  | m :: ms, acc =>
      if acc then
        match jsGetProp logger m with
        | .error e => .error e
        | .ok v => loggerCheckFold logger ms (checkFunction v)
      else loggerCheckFold logger ms false

/-- The `Entity` constructor (src/entity.js lines 146 to 171).
`Object.assign(\x7b\x7d, options)` followed by destructuring reads the
named options off any value without throwing, which `objGetD` captures;
the only latent throw sites are the `logger[method]` reads inside the
reduce, kept in the `Except` layer. The child-logger call
`logger.child(..)` is modelled as retaining the chosen logger. -/
def entityConstructor (schema : EntitySchema) (options : JsVal) : Except String EntityState :=
  let logger := objGetD options "logger"
  match loggerCheckFold logger LOG_METHODS (checkObject logger) with
  | .error e => .error e
  | .ok isLoggerValid =>
      let loggerRef := if isLoggerValid then LoggerRef.provided logger else LoggerRef.defaultLogger
      let username0 := objGetD options "username"
      let username := if checkString username0 1 then username0 else .str "SYSTEM"
      let awsRegion0 := objGetD options "awsRegion"
      let awsRegion := if checkString awsRegion0 1 then awsRegion0 else .undefined
      let awsCredentials0 := objGetD options "awsCredentials"
      let awsCredentials := if checkObject awsCredentials0 then awsCredentials0 else .undefined
      .ok ⟨schema, username, awsRegion, awsCredentials, loggerRef⟩

namespace Entity

/-- `Entity._getHashKey` (src/entity.js lines 188 to 199): reads
`keys[hashKeyName]` and accepts it when the bare `checkString` or
`checkNumber` validator passes, else throws an `ArgError` naming the
hash key field. -/
def getHashKey (ent : EntityState) (keys : JsVal) : Except EntityError JsVal :=
  let hashKey := objGetD keys ent.schema.hashKeyName
  if checkString hashKey 1 || checkNumber hashKey 1 then .ok hashKey
  else .error (.argError ("Invalid hash key (keys." ++ ent.schema.hashKeyName ++ ")"))

/-- `Entity._getRangeKey` (src/entity.js lines 224 to 243): without a
declared range key field the JS function returns with no value
(`undefined`); otherwise it reads `keys[rangeKeyName]`, passes an
undefined value through when `allowUndefined` is set, and validates the
value like the hash key, throwing an `ArgError` naming the range key
field. -/
def getRangeKey (ent : EntityState) (keys : JsVal) (allowUndefined : Bool) : Except EntityError JsVal :=
  match ent.schema.rangeKeyName with
  | none => .ok .undefined
  | some rkName =>
      let rangeKey := objGetD keys rkName
      if rangeKey.isUndefined && allowUndefined then .ok rangeKey
      else if checkString rangeKey 1 || checkNumber rangeKey 1 then .ok rangeKey
      else .error (.argError ("Invalid range key (keys." ++ rkName ++ ")"))

/-- `Entity._getUsername` (src/entity.js lines 259 to 267): the audit
username when audit is an object carrying a valid string username, else
the configured entity username. -/
def getUsername (ent : EntityState) (audit : JsVal) : JsVal :=
  if !checkObject audit || !checkString (objGetD audit "username") 1 then ent.username
  else objGetD audit "username"

/-- The validated parameters `_initParams` produces (the derived child
logger carries only observability data and is not modelled). -/
structure EntityParams where
  hashKey : JsVal
  rangeKey : JsVal
  username : JsVal

/-- `Entity._initParams` (src/entity.js lines 291 to 310): validates that
`keys` is an object, then composes hash key extraction, range key
extraction and username resolution. -/
def initParams (ent : EntityState) (keys : JsVal) (operation : String) (audit : JsVal)
    (rangeKeyOptional : Bool) : Except EntityError EntityParams :=
  let _ := operation
  match checkObjectOrThrow keys "Invalid keys (arg #1)" with
  | .error e => .error e
  | .ok _ =>
      match getHashKey ent keys with
      | .error e => .error e
      | .ok hashKey =>
          match getRangeKey ent keys rangeKeyOptional with
          | .error e => .error e
          | .ok rangeKey => .ok ⟨hashKey, rangeKey, getUsername ent audit⟩

/-- The field-name value `client.where(this.rangeKeyName)` passes: the
declared name, or the JS `undefined` when none is declared. -/
def rangeKeyField (ent : EntityState) : JsVal :=
  match ent.schema.rangeKeyName with
  | some rkName => .str rkName
  | none => .undefined

/-- `Entity._initClient` (src/entity.js lines 324 to 339): a fresh client
bound to the table, with a hash key equality filter added only when the
hash key argument is defined, and likewise for the range key. -/
def initClient (ent : EntityState) (hashKey rangeKey : JsVal) : DynamoClient :=
  let client := DynamoClient.fresh ent.schema.tableName
  let client := if hashKey.isUndefined then client
    else client.whereEq (.str ent.schema.hashKeyName) hashKey
  let client := if rangeKey.isUndefined then client
    else client.whereEq (rangeKeyField ent) rangeKey
  client

end Entity

/-! ### SimpleEntity (src/simple-entity.js) -/

/-- The ambient effects one CRUD call reads: `Date.now()` (one instant
per synchronous call body) and the `shortid.generate()` token minted by
the call. -/
structure Env where
  now : Int
  token : String

/-- The observable behaviour of one CRUD call: the store requests it
issued (empty on synchronous validation failure or on the no-op update
path, a single action otherwise) and the promise resolution. -/
structure OpTrace (α : Type) where
  requests : List StoreAction
  result : Except EntityError α

namespace SimpleEntity

/-- The conditional-check failure code the source sniffs on store errors. -/
def conditionalCheckFailed : String := "ConditionalCheckFailedException"

/-- The augmented insert payload built by `create` (src/simple-entity.js
lines 74 to 81): `Object.assign` of an empty object, `props`, `keys` and
the reserved-field literal, in that order. -/
def createPayload (props keys username : JsVal) (env : Env) : List (String × JsVal) :=
  objAssignL (objAssignV (objAssignV [] props) keys)
    [("__status", .str "active"),
     ("__version", .str env.token),
     ("__createdBy", username),
     ("__createDate", .num env.now),
     ("__updatedBy", username),
     ("__updateDate", .num env.now)]

/-- The synchronous prologue of `SimpleEntity.create` (src/simple-entity.js
lines 59 to 84): validate `props`, build parameters with the range key
optional exactly when the entity declares none, initialize an unfiltered
client, and build the augmented payload. -/
def createPrepared (ent : EntityState) (keys props audit : JsVal) (env : Env) :
    Except EntityError (DynamoClient × List (String × JsVal)) :=
  match checkObjectOrThrow props "Invalid props (arg #2)" with
  | .error e => .error e
  | .ok _ =>
      let rangeKeyOptional := ent.schema.rangeKeyName.isNone
      match Entity.initParams ent keys "create" audit rangeKeyOptional with
      | .error e => .error e
      | .ok params =>
          .ok (Entity.initClient ent .undefined .undefined,
            createPayload props keys params.username env)

/-- `SimpleEntity.create` (src/simple-entity.js lines 59 to 93): issues a
single insert and translates a conditional-check failure into
`DuplicateRecordError`, passing every other error through unchanged. -/
def create (ent : EntityState) (keys props audit : JsVal) (env : Env)
    (store : Except DynamoError JsVal) : OpTrace JsVal :=
  match createPrepared ent keys props audit env with
  | .error e => ⟨[], .error e⟩
  | .ok (client, payload) =>
      ⟨[.insert client payload],
        match store with
        | .ok results => .ok results
        | .error e =>
            if e.code = some conditionalCheckFailed then .error .duplicateRecord
            else .error (.storeError e)⟩

/-- The synchronous prologue of `SimpleEntity.lookup` (src/simple-entity.js
lines 107 to 126): validate `keys`, build parameters, initialize a client
filtered by the extracted keys, and add the `__status == active`
condition. -/
def lookupPrepared (ent : EntityState) (keys audit : JsVal) :
    Except EntityError DynamoClient :=
  match checkObjectOrThrow keys "Invalid keys (arg #1)" with
  | .error e => .error e
  | .ok _ =>
      let rangeKeyOptional := ent.schema.rangeKeyName.isNone
      match Entity.initParams ent keys "lookup" audit rangeKeyOptional with
      | .error e => .error e
      | .ok params =>
          .ok ((Entity.initClient ent params.hashKey params.rangeKey).ifEq
            (.str "__status") (.str "active"))

/-- `SimpleEntity.lookup` (src/simple-entity.js lines 107 to 128): issues
a single point read; errors pass through unchanged. -/
def lookup (ent : EntityState) (keys audit : JsVal)
    (store : Except DynamoError JsVal) : OpTrace JsVal :=
  match lookupPrepared ent keys audit with
  | .error e => ⟨[], .error e⟩
  | .ok client =>
      ⟨[.get client],
        match store with
        | .ok results => .ok results
        | .error e => .error (.storeError e)⟩

/-- The synchronous prologue of `SimpleEntity.list` (src/simple-entity.js
lines 153 to 178): validate `keys`, build parameters with the range key
always optional, filter by the hash key only, add the
`__status == active` having-condition, attach a resume token built from
the native key encoding when the range key is defined, and cap the page
when `count` passes the bare number check. -/
def listPrepared (ent : EntityState) (keys count audit : JsVal) :
    Except EntityError DynamoClient :=
  match checkObjectOrThrow keys "Invalid keys (arg #1)" with
  | .error e => .error e
  | .ok _ =>
      match Entity.initParams ent keys "list" audit true with
      | .error e => .error e
      | .ok params =>
          let client := Entity.initClient ent params.hashKey .undefined
          let client := client.havingEq (.str "__status") (.str "active")
          let client :=
            if params.rangeKey.isUndefined then client
            else
              client.resumeWith (converterInputM
                (objSetF (objSetF [] ent.schema.hashKeyName params.hashKey)
                  (ent.schema.rangeKeyName.getD "undefined") params.rangeKey))
          let client := if checkNumber count 1 then client.limitWith count else client
          .ok client

/-- `SimpleEntity.list` (src/simple-entity.js lines 153 to 180): issues a
single query; errors pass through unchanged. -/
def list (ent : EntityState) (keys count audit : JsVal)
    (store : Except DynamoError JsVal) : OpTrace JsVal :=
  match listPrepared ent keys count audit with
  | .error e => ⟨[], .error e⟩
  | .ok client =>
      ⟨[.query client],
        match store with
        | .ok results => .ok results
        | .error e => .error (.storeError e)⟩

/-- The resolution object of `update`: `\x7bkeys, properties, __version\x7d`. -/
structure UpdateResult where
  keys : JsVal
  properties : List String
  version : JsVal

/-- The conditioned client `update` builds (src/simple-entity.js lines
222 to 226): key equality filters, `__status == active` and
`__version == version` conditions, and the prior-image request. -/
def updateClient (ent : EntityState) (hashKey rangeKey version : JsVal) : DynamoClient :=
  (((Entity.initClient ent hashKey rangeKey).ifEq
      (.str "__status") (.str "active")).ifEq
      (.str "__version") version).returnAllOld

/-- The field set `update` persists before stamping (src/simple-entity.js
lines 229 to 237): the update policy applied to `updateProps`, merged
with the delete policy applied to `deleteProps` with each selected value
replaced by the remove-attribute marker `client.del()`. -/
def updateSelection (ent : EntityState) (updateProps deleteProps : JsVal) :
    List (String × JsVal) :=
  selectiveCopy ent.schema.deleteFields deleteProps
    (selectiveCopy ent.schema.updateFields updateProps [] none)
    (some .delMarker)

/-- The conditional-write payload of `update` (src/simple-entity.js lines
243 to 247): the policy-selected field set stamped with a fresh
`__version`, `__updatedBy` and `__updateDate`. -/
def stampedPayload (ent : EntityState) (updateProps deleteProps username : JsVal)
    (env : Env) : List (String × JsVal) :=
  objSetF (objSetF (objSetF (updateSelection ent updateProps deleteProps)
    "__version" (.str env.token))
    "__updatedBy" username)
    "__updateDate" (.num env.now)

/-- The plan the synchronous part of `update` commits to: either the
no-op short circuit or a single conditional write. -/
inductive UpdatePlan where
  | noop (res : UpdateResult)
  | write (client : DynamoClient) (payload : List (String × JsVal)) (res : UpdateResult)

/-- The synchronous prologue of `SimpleEntity.update` (src/simple-entity.js
lines 200 to 248): the four argument validations in source order, the
parameter build, the conditioned client, the policy-selected field set,
and the branch on whether any field was selected; on the write branch the
payload is stamped with a fresh `__version`, `__updatedBy` and
`__updateDate`. -/
def updatePrepared (ent : EntityState) (keys updateProps deleteProps version audit : JsVal)
    (env : Env) : Except EntityError UpdatePlan :=
  match checkObjectOrThrow keys "Invalid keys (arg #1)" with
  | .error e => .error e
  | .ok _ =>
  match checkObjectOrThrow updateProps "Invalid update properties (arg #2)" with
  | .error e => .error e
  | .ok _ =>
  match checkObjectOrThrow deleteProps "Invalid delete properties (arg #3)" with
  | .error e => .error e
  | .ok _ =>
  match checkStringOrThrow version 1 "Invalid version (arg #4)" with
  | .error e => .error e
  | .ok _ =>
  match Entity.initParams ent keys "update" audit ent.schema.rangeKeyName.isNone with
  | .error e => .error e
  | .ok params =>
      let client := updateClient ent params.hashKey params.rangeKey version
      let propsToUpdate := updateSelection ent updateProps deleteProps
      let properties := propsToUpdate.map Prod.fst
      if properties.length > 0 then
        .ok (.write client (stampedPayload ent updateProps deleteProps params.username env)
          ⟨keys, properties, version⟩)
      else
        .ok (.noop ⟨keys, properties, version⟩)

/-- `SimpleEntity.update` (src/simple-entity.js lines 200 to 280): on the
no-op branch resolve immediately without touching the store; on the write
branch issue the single conditional update, resolving with the
caller-supplied version on success and translating a conditional-check
failure into `ConcurrencyControlError`, passing every other error through
unchanged. -/
def update (ent : EntityState) (keys updateProps deleteProps version audit : JsVal)
    (env : Env) (store : Except DynamoError JsVal) : OpTrace UpdateResult :=
  match updatePrepared ent keys updateProps deleteProps version audit env with
  | .error e => ⟨[], .error e⟩
  | .ok (.noop res) => ⟨[], .ok res⟩
  | .ok (.write client payload res) =>
      ⟨[.updateReq client payload],
        match store with
        | .ok _ => .ok res
        | .error e =>
            if e.code = some conditionalCheckFailed then .error .concurrencyControl
            else .error (.storeError e)⟩

/-- The synchronous prologue of `SimpleEntity.delete` (src/simple-entity.js
lines 299 to 317): validate `keys` and `version`, build parameters, and
condition the key-filtered client on `__status == active` and
`__version == version`. -/
def deletePrepared (ent : EntityState) (keys version audit : JsVal) :
    Except EntityError DynamoClient :=
  match checkObjectOrThrow keys "Invalid keys (arg #1)" with
  | .error e => .error e
  | .ok _ =>
  match checkStringOrThrow version 1 "Invalid version (arg #2)" with
  | .error e => .error e
  | .ok _ =>
  match Entity.initParams ent keys "delete" audit ent.schema.rangeKeyName.isNone with
  | .error e => .error e
  | .ok params =>
      let client := Entity.initClient ent params.hashKey params.rangeKey
      .ok ((client.ifEq (.str "__status") (.str "active")).ifEq (.str "__version") version)

/-- `SimpleEntity.delete` (src/simple-entity.js lines 299 to 329): issues
the single conditional physical delete, translating a conditional-check
failure into `ConcurrencyControlError` and passing every other error
through unchanged. -/
def delete (ent : EntityState) (keys version audit : JsVal)
    (store : Except DynamoError JsVal) : OpTrace JsVal :=
  match deletePrepared ent keys version audit with
  | .error e => ⟨[], .error e⟩
  | .ok client =>
      ⟨[.deleteReq client],
        match store with
        | .ok results => .ok results
        | .error e =>
            if e.code = some conditionalCheckFailed then .error .concurrencyControl
            else .error (.storeError e)⟩

end SimpleEntity

/-! ### Concrete fixtures used by witnesses and counterexamples -/

/-- A schema with both keys declared, mirroring the README example: hash
key `accountId`, range key `entityId`, update policy whitelisting
`count`, delete policy whitelisting `tag`. -/
def testSchema : EntitySchema :=
  ⟨"test-table", "accountId", some "entityId", ["count"], ["tag"]⟩

/-- An entity over `testSchema` with the default configuration. -/
def testEntity : EntityState :=
  ⟨testSchema, .str "SYSTEM", .undefined, .undefined, .defaultLogger⟩

/-- A schema declaring no range key field. -/
def hashSchema : EntitySchema :=
  ⟨"hash-table", "accountId", none, ["count"], ["tag"]⟩

/-- An entity over `hashSchema` with the default configuration. -/
def hashEntity : EntityState :=
  ⟨hashSchema, .str "SYSTEM", .undefined, .undefined, .defaultLogger⟩

/-- Concrete keys for `testEntity`. -/
def testKeys : JsVal :=
  .obj [("accountId", .str "acme"), ("entityId", .str "e1")]

/-- A concrete environment. -/
def testEnv : Env := ⟨1700000000000, "tok-fresh-42"⟩

/-! ### Helper lemmas -/

@[simp] theorem whereEq_table (c : DynamoClient) (f v : JsVal) :
    (c.whereEq f v).table = c.table := rfl

@[simp] theorem whereEq_ifClauses (c : DynamoClient) (f v : JsVal) :
    (c.whereEq f v).ifClauses = c.ifClauses := rfl

@[simp] theorem whereEq_havingClauses (c : DynamoClient) (f v : JsVal) :
    (c.whereEq f v).havingClauses = c.havingClauses := rfl

@[simp] theorem whereEq_allOld (c : DynamoClient) (f v : JsVal) :
    (c.whereEq f v).allOld = c.allOld := rfl

@[simp] theorem whereEq_resumeToken (c : DynamoClient) (f v : JsVal) :
    (c.whereEq f v).resumeToken = c.resumeToken := rfl

@[simp] theorem whereEq_whereClauses (c : DynamoClient) (f v : JsVal) :
    (c.whereEq f v).whereClauses = c.whereClauses ++ [(f, v)] := rfl

@[simp] theorem ifEq_table (c : DynamoClient) (f v : JsVal) :
    (c.ifEq f v).table = c.table := rfl

@[simp] theorem ifEq_whereClauses (c : DynamoClient) (f v : JsVal) :
    (c.ifEq f v).whereClauses = c.whereClauses := rfl

@[simp] theorem ifEq_allOld (c : DynamoClient) (f v : JsVal) :
    (c.ifEq f v).allOld = c.allOld := rfl

@[simp] theorem ifEq_resumeToken (c : DynamoClient) (f v : JsVal) :
    (c.ifEq f v).resumeToken = c.resumeToken := rfl

@[simp] theorem ifEq_ifClauses (c : DynamoClient) (f v : JsVal) :
    (c.ifEq f v).ifClauses = c.ifClauses ++ [(f, v)] := rfl

@[simp] theorem havingEq_whereClauses (c : DynamoClient) (f v : JsVal) :
    (c.havingEq f v).whereClauses = c.whereClauses := rfl

@[simp] theorem havingEq_resumeToken (c : DynamoClient) (f v : JsVal) :
    (c.havingEq f v).resumeToken = c.resumeToken := rfl

@[simp] theorem returnAllOld_table (c : DynamoClient) :
    c.returnAllOld.table = c.table := rfl

@[simp] theorem returnAllOld_whereClauses (c : DynamoClient) :
    c.returnAllOld.whereClauses = c.whereClauses := rfl

@[simp] theorem returnAllOld_ifClauses (c : DynamoClient) :
    c.returnAllOld.ifClauses = c.ifClauses := rfl

@[simp] theorem returnAllOld_allOld (c : DynamoClient) :
    c.returnAllOld.allOld = true := rfl

@[simp] theorem resumeWith_resumeToken (c : DynamoClient) (t : DynamoKeyEncoding) :
    (c.resumeWith t).resumeToken = some t := rfl

@[simp] theorem limitWith_resumeToken (c : DynamoClient) (n : JsVal) :
    (c.limitWith n).resumeToken = c.resumeToken := rfl

theorem isUndef_iff (v : JsVal) : v.isUndefined = true ↔ v = .undefined := by
  cases v <;> simp [JsVal.isUndefined]

theorem one_le_length_iff (s : String) : 1 ≤ s.length ↔ s ≠ "" := by
  cases s with
  | mk data =>
      cases data <;>
        simp [String.length, String.ext_iff]

theorem checkString_one_iff (v : JsVal) :
    checkString v 1 = true ↔ ∃ s, v = .str s ∧ s ≠ "" := by
  cases v <;> simp [checkString, one_le_length_iff]

theorem checkNumber_one_iff (v : JsVal) :
    checkNumber v 1 = true ↔ ∃ n, v = .num n ∧ 1 ≤ n := by
  cases v <;> simp [checkNumber]

/-- A value passing the bare hash or range key validation is a non-empty
string or a number that is at least one. -/
theorem keyValid_iff (v : JsVal) :
    (checkString v 1 || checkNumber v 1) = true ↔
      ((∃ s, v = .str s ∧ s ≠ "") ∨ (∃ n, v = .num n ∧ 1 ≤ n)) := by
  rw [Bool.or_eq_true, checkString_one_iff, checkNumber_one_iff]

theorem keyValid_not_undef {v : JsVal}
    (h : (checkString v 1 || checkNumber v 1) = true) : v.isUndefined = false := by
  rcases (keyValid_iff v).mp h with ⟨s, rfl, _⟩ | ⟨n, rfl, _⟩ <;> rfl

theorem getHashKey_ok_val {ent : EntityState} {keys H : JsVal}
    (h : Entity.getHashKey ent keys = .ok H) :
    H = objGetD keys ent.schema.hashKeyName ∧
      (checkString H 1 || checkNumber H 1) = true := by
  unfold Entity.getHashKey at h
  by_cases hc :
      (checkString (objGetD keys ent.schema.hashKeyName) 1 ||
        checkNumber (objGetD keys ent.schema.hashKeyName) 1) = true
  · rw [if_pos hc] at h
    cases h
    exact ⟨rfl, hc⟩
  · rw [if_neg hc] at h
    cases h

theorem getHashKey_ok_not_undef {ent : EntityState} {keys H : JsVal}
    (h : Entity.getHashKey ent keys = .ok H) : H.isUndefined = false :=
  keyValid_not_undef (getHashKey_ok_val h).2

theorem getRangeKey_none {ent : EntityState} {keys : JsVal} {b : Bool}
    (h : ent.schema.rangeKeyName = none) :
    Entity.getRangeKey ent keys b = .ok .undefined := by
  unfold Entity.getRangeKey
  rw [h]

theorem getRangeKey_some_ok_val {ent : EntityState} {keys R : JsVal} {rn : String}
    (hrn : ent.schema.rangeKeyName = some rn)
    (h : Entity.getRangeKey ent keys false = .ok R) :
    R = objGetD keys rn ∧ (checkString R 1 || checkNumber R 1) = true := by
  unfold Entity.getRangeKey at h
  rw [hrn] at h
  simp only [Bool.and_false, Bool.false_eq_true, if_false] at h
  by_cases hc :
      (checkString (objGetD keys rn) 1 || checkNumber (objGetD keys rn) 1) = true
  · rw [if_pos hc] at h
    cases h
    exact ⟨rfl, hc⟩
  · rw [if_neg hc] at h
    cases h

theorem checkObjectOrThrow_ok {v : JsVal} {msg : String}
    (h : checkObject v = true) : checkObjectOrThrow v msg = .ok () := by
  unfold checkObjectOrThrow
  rw [h]
  rfl

theorem checkStringOrThrow_ok {v : JsVal} {n : Nat} {msg : String}
    (h : checkString v n = true) : checkStringOrThrow v n msg = .ok () := by
  unfold checkStringOrThrow
  rw [h]
  rfl

theorem initParams_ok {ent : EntityState} {keys audit H R : JsVal} {op : String}
    {rko : Bool}
    (hko : checkObject keys = true)
    (hH : Entity.getHashKey ent keys = .ok H)
    (hR : Entity.getRangeKey ent keys rko = .ok R) :
    Entity.initParams ent keys op audit rko =
      .ok ⟨H, R, Entity.getUsername ent audit⟩ := by
  unfold Entity.initParams
  rw [checkObjectOrThrow_ok hko, hH, hR]

theorem objLookup_objSetF (fs : List (String × JsVal)) (k : String) (v : JsVal)
    (key : String) :
    objLookup (objSetF fs k v) key = if k = key then some v else objLookup fs key := by
  induction fs with
  | nil => simp [objSetF, objLookup]
  | cons hd tl ih =>
      obtain ⟨k0, v0⟩ := hd
      by_cases h0 : k0 = k
      · subst h0
        simp only [objSetF, if_pos rfl]
        by_cases hk : k0 = key
        · subst hk
          simp [objLookup]
        · simp [objLookup, hk]
      · simp only [objSetF, if_neg h0]
        by_cases hk : k0 = key
        · subst hk
          have hkk : ¬ k = k0 := fun h => h0 h.symm
          simp [objLookup, hkk]
        · simp [objLookup, hk, ih]

theorem objLookup_eq_none_of_not_mem (fs : List (String × JsVal)) (key : String)
    (h : key ∉ fs.map Prod.fst) : objLookup fs key = none := by
  induction fs with
  | nil => rfl
  | cons hd tl ih =>
      obtain ⟨k0, v0⟩ := hd
      simp only [List.map_cons, List.mem_cons] at h
      push_neg at h
      have : k0 ≠ key := fun he => h.1 he.symm
      simp [objLookup, this, ih h.2]

theorem objLookup_objAssignL (t src : List (String × JsVal)) (key : String)
    (h : (src.map Prod.fst).Nodup) :
    objLookup (objAssignL t src) key =
      (match objLookup src key with
        | some v => some v
        | none => objLookup t key) := by
  induction src generalizing t with
  | nil => simp [objAssignL, objLookup]
  | cons hd tl ih =>
      obtain ⟨k0, v0⟩ := hd
      simp only [List.map_cons, List.nodup_cons] at h
      rw [show objAssignL t ((k0, v0) :: tl) = objAssignL (objSetF t k0 v0) tl from rfl]
      rw [ih _ h.2]
      by_cases hk : k0 = key
      · subst hk
        have : objLookup tl k0 = none := objLookup_eq_none_of_not_mem tl k0 h.1
        simp [objLookup, this, objLookup_objSetF]
      · simp [objLookup, hk, objLookup_objSetF]

theorem updatePrepared_write {ent : EntityState}
    {keys updateProps deleteProps version H R : JsVal} (audit : JsVal) (env : Env)
    (hko : checkObject keys = true)
    (huo : checkObject updateProps = true)
    (hdo : checkObject deleteProps = true)
    (hv : checkString version 1 = true)
    (hH : Entity.getHashKey ent keys = .ok H)
    (hR : Entity.getRangeKey ent keys ent.schema.rangeKeyName.isNone = .ok R)
    (hsel : 0 < (SimpleEntity.updateSelection ent updateProps deleteProps).length) :
    SimpleEntity.updatePrepared ent keys updateProps deleteProps version audit env =
      .ok (.write (SimpleEntity.updateClient ent H R version)
        (SimpleEntity.stampedPayload ent updateProps deleteProps
          (Entity.getUsername ent audit) env)
        ⟨keys, (SimpleEntity.updateSelection ent updateProps deleteProps).map Prod.fst,
          version⟩) := by
  unfold SimpleEntity.updatePrepared
  rw [checkObjectOrThrow_ok hko, checkObjectOrThrow_ok huo, checkObjectOrThrow_ok hdo,
    checkStringOrThrow_ok hv, initParams_ok hko hH hR]
  simp [hsel]

theorem updatePrepared_noop {ent : EntityState}
    {keys updateProps deleteProps version H R : JsVal} (audit : JsVal) (env : Env)
    (hko : checkObject keys = true)
    (huo : checkObject updateProps = true)
    (hdo : checkObject deleteProps = true)
    (hv : checkString version 1 = true)
    (hH : Entity.getHashKey ent keys = .ok H)
    (hR : Entity.getRangeKey ent keys ent.schema.rangeKeyName.isNone = .ok R)
    (hsel : SimpleEntity.updateSelection ent updateProps deleteProps = []) :
    SimpleEntity.updatePrepared ent keys updateProps deleteProps version audit env =
      .ok (.noop ⟨keys, [], version⟩) := by
  unfold SimpleEntity.updatePrepared
  rw [checkObjectOrThrow_ok hko, checkObjectOrThrow_ok huo, checkObjectOrThrow_ok hdo,
    checkStringOrThrow_ok hv, initParams_ok hko hH hR]
  simp [hsel]

theorem createPrepared_ok {ent : EntityState} {keys props H R : JsVal}
    (audit : JsVal) (env : Env)
    (hko : checkObject keys = true)
    (hpo : checkObject props = true)
    (hH : Entity.getHashKey ent keys = .ok H)
    (hR : Entity.getRangeKey ent keys ent.schema.rangeKeyName.isNone = .ok R) :
    SimpleEntity.createPrepared ent keys props audit env =
      .ok (Entity.initClient ent .undefined .undefined,
        SimpleEntity.createPayload props keys (Entity.getUsername ent audit) env) := by
  unfold SimpleEntity.createPrepared
  rw [checkObjectOrThrow_ok hpo]
  simp [initParams_ok hko hH hR]

@[simp] theorem initClient_table (ent : EntityState) (hk rk : JsVal) :
    (Entity.initClient ent hk rk).table = ent.schema.tableName := by
  unfold Entity.initClient
  by_cases h1 : hk.isUndefined = true <;> by_cases h2 : rk.isUndefined = true <;>
    simp [h1, h2, DynamoClient.fresh]

@[simp] theorem initClient_ifClauses (ent : EntityState) (hk rk : JsVal) :
    (Entity.initClient ent hk rk).ifClauses = [] := by
  unfold Entity.initClient
  by_cases h1 : hk.isUndefined = true <;> by_cases h2 : rk.isUndefined = true <;>
    simp [h1, h2, DynamoClient.fresh]

@[simp] theorem initClient_havingClauses (ent : EntityState) (hk rk : JsVal) :
    (Entity.initClient ent hk rk).havingClauses = [] := by
  unfold Entity.initClient
  by_cases h1 : hk.isUndefined = true <;> by_cases h2 : rk.isUndefined = true <;>
    simp [h1, h2, DynamoClient.fresh, DynamoClient.whereEq]

@[simp] theorem initClient_allOld (ent : EntityState) (hk rk : JsVal) :
    (Entity.initClient ent hk rk).allOld = false := by
  unfold Entity.initClient
  by_cases h1 : hk.isUndefined = true <;> by_cases h2 : rk.isUndefined = true <;>
    simp [h1, h2, DynamoClient.fresh]

@[simp] theorem initClient_resumeToken (ent : EntityState) (hk rk : JsVal) :
    (Entity.initClient ent hk rk).resumeToken = none := by
  unfold Entity.initClient
  by_cases h1 : hk.isUndefined = true <;> by_cases h2 : rk.isUndefined = true <;>
    simp [h1, h2, DynamoClient.fresh, DynamoClient.whereEq]

theorem initClient_whereClauses (ent : EntityState) (hk rk : JsVal) :
    (Entity.initClient ent hk rk).whereClauses =
      (if hk.isUndefined then [] else [(JsVal.str ent.schema.hashKeyName, hk)]) ++
      (if rk.isUndefined then [] else [(Entity.rangeKeyField ent, rk)]) := by
  unfold Entity.initClient
  by_cases h1 : hk.isUndefined = true <;> by_cases h2 : rk.isUndefined = true <;>
    simp [h1, h2, DynamoClient.fresh, DynamoClient.whereEq]

/-! ### Claims -/

/-- C1: for every update call whose keys yield hash key `H` (and range
key `R` when the entity declares a range key field) and whose version is
a non-empty string, when the selected field set is non-empty the single
conditional update request sent to the store is filtered by equality on
the hash key (and range key, if declared), is conditioned on
`__status == active` and `__version == version`, and requests the prior
image (`ALL_OLD`) of the record. -/
theorem claim1_update_conditional_request (ent : EntityState)
    (keys updateProps deleteProps audit : JsVal) (env : Env)
    (store : Except DynamoError JsVal) (H R : JsVal) (vs : String)
    (hko : checkObject keys = true)
    (huo : checkObject updateProps = true)
    (hdo : checkObject deleteProps = true)
    (hvs : vs ≠ "")
    (hH : Entity.getHashKey ent keys = .ok H)
    (hR : Entity.getRangeKey ent keys ent.schema.rangeKeyName.isNone = .ok R)
    (hsel : 0 < (SimpleEntity.updateSelection ent updateProps deleteProps).length) :
    ∃ p,
      (SimpleEntity.update ent keys updateProps deleteProps (.str vs) audit env
          store).requests =
        [.updateReq (SimpleEntity.updateClient ent H R (.str vs)) p] ∧
      (SimpleEntity.updateClient ent H R (.str vs)).table = ent.schema.tableName ∧
      (SimpleEntity.updateClient ent H R (.str vs)).whereClauses =
        (JsVal.str ent.schema.hashKeyName, H) ::
          (match ent.schema.rangeKeyName with
            | some rn => [(JsVal.str rn, R)]
            | none => []) ∧
      (SimpleEntity.updateClient ent H R (.str vs)).ifClauses =
        [(.str "__status", .str "active"), (.str "__version", .str vs)] ∧
      (SimpleEntity.updateClient ent H R (.str vs)).allOld = true := by
  have hv : checkString (.str vs) 1 = true := (checkString_one_iff _).mpr ⟨vs, rfl, hvs⟩
  have hprep := updatePrepared_write audit env hko huo hdo hv hH hR hsel
  refine ⟨SimpleEntity.stampedPayload ent updateProps deleteProps
    (Entity.getUsername ent audit) env, ?_, ?_, ?_, ?_, ?_⟩
  · simp [SimpleEntity.update, hprep]
  · simp [SimpleEntity.updateClient]
  · have hHu : H.isUndefined = false := getHashKey_ok_not_undef hH
    cases hrn : ent.schema.rangeKeyName with
    | none =>
        have : R = .undefined := by
          rw [getRangeKey_none hrn] at hR
          cases hR
          rfl
        subst this
        simp [SimpleEntity.updateClient, initClient_whereClauses, hHu, JsVal.isUndefined]
        exact hHu
    | some rn =>
        rw [hrn] at hR
        have hRv := getRangeKey_some_ok_val hrn (by simpa using hR)
        have hRu : R.isUndefined = false := keyValid_not_undef hRv.2
        simp [SimpleEntity.updateClient, initClient_whereClauses, hHu, hRu,
          Entity.rangeKeyField, hrn]
  · simp [SimpleEntity.updateClient]
  · simp [SimpleEntity.updateClient]

/-- C1 witness: a concrete update against the range-keyed test entity. -/
theorem claim1_witness :
    ∃ p,
      (SimpleEntity.update testEntity testKeys
          (.obj [("count", .num 5)]) (.obj [("tag", .str "x")]) (.str "v1") .undefined
          testEnv (.ok (.obj []))).requests =
        [.updateReq
          (SimpleEntity.updateClient testEntity (.str "acme") (.str "e1") (.str "v1")) p] ∧
      (SimpleEntity.updateClient testEntity (.str "acme") (.str "e1")
          (.str "v1")).table = testEntity.schema.tableName ∧
      (SimpleEntity.updateClient testEntity (.str "acme") (.str "e1")
          (.str "v1")).whereClauses =
        (JsVal.str testEntity.schema.hashKeyName, .str "acme") ::
          (match testEntity.schema.rangeKeyName with
            | some rn => [(JsVal.str rn, .str "e1")]
            | none => []) ∧
      (SimpleEntity.updateClient testEntity (.str "acme") (.str "e1")
          (.str "v1")).ifClauses =
        [(.str "__status", .str "active"), (.str "__version", .str "v1")] ∧
      (SimpleEntity.updateClient testEntity (.str "acme") (.str "e1")
          (.str "v1")).allOld = true :=
  claim1_update_conditional_request testEntity testKeys
    (.obj [("count", .num 5)]) (.obj [("tag", .str "x")]) .undefined testEnv
    (.ok (.obj [])) (.str "acme") (.str "e1") "v1"
    rfl rfl rfl (by decide) rfl rfl (by decide)

/-- C3: for every update call whose selected field set is non-empty and
whose conditional write succeeds, the resolved result is the keys, the
names of the fields that were updated or deleted, and exactly the
caller-supplied version string, while the record itself was stamped with
the newly generated `__version` token. -/
theorem claim3_update_result_reports_input_version (ent : EntityState)
    (keys updateProps deleteProps audit : JsVal) (env : Env) (r : JsVal)
    (H R : JsVal) (vs : String)
    (hko : checkObject keys = true)
    (huo : checkObject updateProps = true)
    (hdo : checkObject deleteProps = true)
    (hvs : vs ≠ "")
    (hH : Entity.getHashKey ent keys = .ok H)
    (hR : Entity.getRangeKey ent keys ent.schema.rangeKeyName.isNone = .ok R)
    (hsel : 0 < (SimpleEntity.updateSelection ent updateProps deleteProps).length) :
    (SimpleEntity.update ent keys updateProps deleteProps (.str vs) audit env
        (.ok r)).result =
      .ok ⟨keys,
        (SimpleEntity.updateSelection ent updateProps deleteProps).map Prod.fst,
        .str vs⟩ ∧
    objLookup
      (SimpleEntity.stampedPayload ent updateProps deleteProps
        (Entity.getUsername ent audit) env) "__version" = some (.str env.token) := by
  have hv : checkString (.str vs) 1 = true := (checkString_one_iff _).mpr ⟨vs, rfl, hvs⟩
  have hprep := updatePrepared_write audit env hko huo hdo hv hH hR hsel
  constructor
  · simp [SimpleEntity.update, hprep]
  · simp [SimpleEntity.stampedPayload, objLookup_objSetF]

/-- C3 witness: a concrete successful update reports the input version
`v-prev` while the stamped payload carries the fresh token. -/
theorem claim3_witness :
    (SimpleEntity.update testEntity testKeys
        (.obj [("count", .num 5)]) (.obj [("tag", .str "x")]) (.str "v-prev") .undefined
        testEnv (.ok (.obj []))).result =
      .ok ⟨testKeys,
        (SimpleEntity.updateSelection testEntity
          (.obj [("count", .num 5)]) (.obj [("tag", .str "x")])).map Prod.fst,
        .str "v-prev"⟩ ∧
    objLookup
      (SimpleEntity.stampedPayload testEntity
        (.obj [("count", .num 5)]) (.obj [("tag", .str "x")])
        (Entity.getUsername testEntity .undefined) testEnv) "__version" =
      some (.str testEnv.token) :=
  claim3_update_result_reports_input_version testEntity testKeys
    (.obj [("count", .num 5)]) (.obj [("tag", .str "x")]) .undefined testEnv
    (.obj []) (.str "acme") (.str "e1") "v-prev"
    rfl rfl rfl (by decide) rfl rfl (by decide)

/-- C4: for every update call where the update and delete policies
together select zero fields, no write request is issued to the store and
the call resolves with the keys, an empty properties list and the
caller-supplied version string. -/
theorem claim4_noop_update (ent : EntityState)
    (keys updateProps deleteProps audit : JsVal) (env : Env)
    (store : Except DynamoError JsVal) (H R : JsVal) (vs : String)
    (hko : checkObject keys = true)
    (huo : checkObject updateProps = true)
    (hdo : checkObject deleteProps = true)
    (hvs : vs ≠ "")
    (hH : Entity.getHashKey ent keys = .ok H)
    (hR : Entity.getRangeKey ent keys ent.schema.rangeKeyName.isNone = .ok R)
    (hsel : SimpleEntity.updateSelection ent updateProps deleteProps = []) :
    (SimpleEntity.update ent keys updateProps deleteProps (.str vs) audit env
        store).requests = [] ∧
    (SimpleEntity.update ent keys updateProps deleteProps (.str vs) audit env
        store).result = .ok ⟨keys, [], .str vs⟩ := by
  have hv : checkString (.str vs) 1 = true := (checkString_one_iff _).mpr ⟨vs, rfl, hvs⟩
  have hprep := updatePrepared_noop audit env hko huo hdo hv hH hR hsel
  constructor
  · simp [SimpleEntity.update, hprep]
  · simp [SimpleEntity.update, hprep]

/-- C4 witness: an update whose inputs match no whitelisted field issues
no request and reports the input version. -/
theorem claim4_witness :
    (SimpleEntity.update testEntity testKeys
        (.obj [("other", .num 1)]) (.obj [("more", .num 2)]) (.str "v-prev") .undefined
        testEnv (.ok (.obj []))).requests = [] ∧
    (SimpleEntity.update testEntity testKeys
        (.obj [("other", .num 1)]) (.obj [("more", .num 2)]) (.str "v-prev") .undefined
        testEnv (.ok (.obj []))).result =
      .ok ⟨testKeys, [], .str "v-prev"⟩ :=
  claim4_noop_update testEntity testKeys
    (.obj [("other", .num 1)]) (.obj [("more", .num 2)]) .undefined testEnv
    (.ok (.obj [])) (.str "acme") (.str "e1") "v-prev"
    rfl rfl rfl (by decide) rfl rfl rfl

/-- C2: for every store error raised during create, update or delete, a
conditional-check-failed code makes create reject with `DuplicateRecord`
and update and delete reject with the concurrency-conflict error, while
every other error is rethrown unchanged; lookup and list (the only other
operations) never translate a store error. Each part is conditioned on
the operation actually having issued its store request. -/
theorem claim2_error_translation (ent : EntityState)
    (keys props updateProps deleteProps version count audit : JsVal)
    (env : Env) (e : DynamoError) :
    (0 < (SimpleEntity.create ent keys props audit env (.error e)).requests.length →
      (SimpleEntity.create ent keys props audit env (.error e)).result =
        .error (if e.code = some SimpleEntity.conditionalCheckFailed
          then .duplicateRecord else .storeError e)) ∧
    (0 < (SimpleEntity.update ent keys updateProps deleteProps version audit env
        (.error e)).requests.length →
      (SimpleEntity.update ent keys updateProps deleteProps version audit env
        (.error e)).result =
        .error (if e.code = some SimpleEntity.conditionalCheckFailed
          then .concurrencyControl else .storeError e)) ∧
    (0 < (SimpleEntity.delete ent keys version audit (.error e)).requests.length →
      (SimpleEntity.delete ent keys version audit (.error e)).result =
        .error (if e.code = some SimpleEntity.conditionalCheckFailed
          then .concurrencyControl else .storeError e)) ∧
    (0 < (SimpleEntity.lookup ent keys audit (.error e)).requests.length →
      (SimpleEntity.lookup ent keys audit (.error e)).result = .error (.storeError e)) ∧
    (0 < (SimpleEntity.list ent keys count audit (.error e)).requests.length →
      (SimpleEntity.list ent keys count audit (.error e)).result =
        .error (.storeError e)) := by
  refine ⟨?_, ?_, ?_, ?_, ?_⟩
  · intro hreq
    cases h : SimpleEntity.createPrepared ent keys props audit env with
    | error err => simp [SimpleEntity.create, h] at hreq
    | ok pr =>
        obtain ⟨c, p⟩ := pr
        by_cases hc : e.code = some SimpleEntity.conditionalCheckFailed <;>
          simp [SimpleEntity.create, h, hc]
  · intro hreq
    cases h : SimpleEntity.updatePrepared ent keys updateProps deleteProps version
        audit env with
    | error err => simp [SimpleEntity.update, h] at hreq
    | ok plan =>
        cases plan with
        | noop res => simp [SimpleEntity.update, h] at hreq
        | write c p res =>
            by_cases hc : e.code = some SimpleEntity.conditionalCheckFailed <;>
              simp [SimpleEntity.update, h, hc]
  · intro hreq
    cases h : SimpleEntity.deletePrepared ent keys version audit with
    | error err => simp [SimpleEntity.delete, h] at hreq
    | ok c =>
        by_cases hc : e.code = some SimpleEntity.conditionalCheckFailed <;>
          simp [SimpleEntity.delete, h, hc]
  · intro hreq
    cases h : SimpleEntity.lookupPrepared ent keys audit with
    | error err => simp [SimpleEntity.lookup, h] at hreq
    | ok c => simp [SimpleEntity.lookup, h]
  · intro hreq
    cases h : SimpleEntity.listPrepared ent keys count audit with
    | error err => simp [SimpleEntity.list, h] at hreq
    | ok c => simp [SimpleEntity.list, h]

/-- C2 witness: concrete translations at both a conditional-check-failed
error and an unrelated error, for a create that did issue its insert and
a lookup that did issue its read. -/
theorem claim2_witness :
    (SimpleEntity.create testEntity testKeys (.obj [("tag", .str "x")]) .undefined testEnv
        (.error ⟨some "ConditionalCheckFailedException", 3⟩)).result =
      .error .duplicateRecord ∧
    (SimpleEntity.lookup testEntity testKeys .undefined
        (.error ⟨some "ProvisionedThroughputExceededException", 7⟩)).result =
      .error (.storeError ⟨some "ProvisionedThroughputExceededException", 7⟩) := by
  constructor
  · have h := (claim2_error_translation testEntity testKeys (.obj [("tag", .str "x")])
      (.obj []) (.obj []) (.str "v1") .undefined .undefined testEnv
      ⟨some "ConditionalCheckFailedException", 3⟩).1 (by decide)
    simpa using h
  · have h := (claim2_error_translation testEntity testKeys (.obj [("tag", .str "x")])
      (.obj []) (.obj []) (.str "v1") .undefined .undefined testEnv
      ⟨some "ProvisionedThroughputExceededException", 7⟩).2.2.2.1 (by decide)
    simpa using h

/-- The six reserved metadata field names stamped by create. -/
def reservedMetaFields : List String :=
  ["__status", "__version", "__createdBy", "__createDate", "__updatedBy", "__updateDate"]

/-- The insert payload as the specification describes it: the merge of
`props` and `keys` (keys winning), overwritten with exactly the reserved
fields — `__status = active`, a fresh `__version` token, creator and
updater both the resolved username, and create and update dates both the
current time. -/
def createMergeSpec (props keys username : JsVal) (env : Env) (f : String) : Option JsVal :=
  if f = "__status" then some (.str "active")
  else if f = "__version" then some (.str env.token)
  else if f = "__createdBy" then some username
  else if f = "__createDate" then some (.num env.now)
  else if f = "__updatedBy" then some username
  else if f = "__updateDate" then some (.num env.now)
  else if objHas keys f then some (objGetD keys f)
  else if objHas props f then some (objGetD props f)
  else none

/-- The three nested merge steps of the create payload, exposed pointwise. -/
theorem createPayload_lookup (pf kf : List (String × JsVal)) (username : JsVal)
    (env : Env) (f : String)
    (hknd : (kf.map Prod.fst).Nodup) (hpnd : (pf.map Prod.fst).Nodup) :
    objLookup (SimpleEntity.createPayload (.obj pf) (.obj kf) username env) f =
      (match objLookup [("__status", JsVal.str "active"),
          ("__version", JsVal.str env.token),
          ("__createdBy", username),
          ("__createDate", JsVal.num env.now),
          ("__updatedBy", username),
          ("__updateDate", JsVal.num env.now)] f with
        | some v => some v
        | none =>
            match objLookup kf f with
            | some v => some v
            | none =>
                match objLookup pf f with
                | some v => some v
                | none => none) := by
  have hmeta : (([("__status", JsVal.str "active"),
      ("__version", JsVal.str env.token),
      ("__createdBy", username),
      ("__createDate", JsVal.num env.now),
      ("__updatedBy", username),
      ("__updateDate", JsVal.num env.now)]).map Prod.fst).Nodup := by
    simp
  simp only [SimpleEntity.createPayload, objAssignV, objFields]
  rw [objLookup_objAssignL _ _ f hmeta, objLookup_objAssignL _ _ f hknd,
    objLookup_objAssignL _ _ f hpnd]
  rfl

/-- C5: for every create call with valid keys and props, the payload sent
in the single insert request equals, field by field, the merge of props
and keys overwritten with exactly the reserved metadata fields, with the
create and update dates equal and both audit fields the resolved
username. -/
theorem claim5_create_payload (ent : EntityState)
    (kf pf : List (String × JsVal)) (audit : JsVal) (env : Env)
    (store : Except DynamoError JsVal) (H R : JsVal)
    (hknd : (kf.map Prod.fst).Nodup) (hpnd : (pf.map Prod.fst).Nodup)
    (hH : Entity.getHashKey ent (.obj kf) = .ok H)
    (hR : Entity.getRangeKey ent (.obj kf) ent.schema.rangeKeyName.isNone = .ok R) :
    (SimpleEntity.create ent (.obj kf) (.obj pf) audit env store).requests =
      [.insert (Entity.initClient ent .undefined .undefined)
        (SimpleEntity.createPayload (.obj pf) (.obj kf)
          (Entity.getUsername ent audit) env)] ∧
    ∀ f, objLookup (SimpleEntity.createPayload (.obj pf) (.obj kf)
        (Entity.getUsername ent audit) env) f =
      createMergeSpec (.obj pf) (.obj kf) (Entity.getUsername ent audit) env f := by
  have hprep := createPrepared_ok audit env
    (show checkObject (JsVal.obj kf) = true from rfl)
    (show checkObject (JsVal.obj pf) = true from rfl) hH hR
  constructor
  · simp [SimpleEntity.create, hprep]
  · intro f
    rw [createPayload_lookup pf kf (Entity.getUsername ent audit) env f hknd hpnd]
    by_cases h1 : "__status" = f
    · subst h1
      simp [objLookup, createMergeSpec]
    by_cases h2 : "__version" = f
    · subst h2
      simp [objLookup, createMergeSpec]
    by_cases h3 : "__createdBy" = f
    · subst h3
      simp [objLookup, createMergeSpec]
    by_cases h4 : "__createDate" = f
    · subst h4
      simp [objLookup, createMergeSpec]
    by_cases h5 : "__updatedBy" = f
    · subst h5
      simp [objLookup, createMergeSpec]
    by_cases h6 : "__updateDate" = f
    · subst h6
      simp [objLookup, createMergeSpec]
    simp only [objLookup, if_neg h1, if_neg h2, if_neg h3, if_neg h4, if_neg h5, if_neg h6]
    cases hk : objLookup kf f with
    | some v =>
        simp [createMergeSpec, Ne.symm h1, Ne.symm h2, Ne.symm h3, Ne.symm h4,
          Ne.symm h5, Ne.symm h6, objHas, objGetD, hk]
    | none =>
        cases hp : objLookup pf f with
        | some v =>
            simp [createMergeSpec, Ne.symm h1, Ne.symm h2, Ne.symm h3, Ne.symm h4,
              Ne.symm h5, Ne.symm h6, objHas, objGetD, hk, hp]
        | none =>
            simp [createMergeSpec, Ne.symm h1, Ne.symm h2, Ne.symm h3, Ne.symm h4,
              Ne.symm h5, Ne.symm h6, objHas, objGetD, hk, hp]

/-- C5 witness: a concrete create, checking the overwritten status field,
the date equality and a merged caller field. -/
theorem claim5_witness :
    (SimpleEntity.create testEntity
        (.obj [("accountId", .str "acme"), ("entityId", .str "e1")])
        (.obj [("tag", .str "x")]) .undefined testEnv (.ok (.obj []))).requests =
      [.insert (Entity.initClient testEntity .undefined .undefined)
        (SimpleEntity.createPayload (.obj [("tag", .str "x")])
          (.obj [("accountId", .str "acme"), ("entityId", .str "e1")])
          (Entity.getUsername testEntity .undefined) testEnv)] ∧
    objLookup (SimpleEntity.createPayload (.obj [("tag", .str "x")])
        (.obj [("accountId", .str "acme"), ("entityId", .str "e1")])
        (Entity.getUsername testEntity .undefined) testEnv) "__status" =
      createMergeSpec (.obj [("tag", .str "x")])
        (.obj [("accountId", .str "acme"), ("entityId", .str "e1")])
        (Entity.getUsername testEntity .undefined) testEnv "__status" := by
  have h := claim5_create_payload testEntity
    [("accountId", .str "acme"), ("entityId", .str "e1")]
    [("tag", .str "x")] .undefined testEnv (.ok (.obj [])) (.str "acme") (.str "e1")
    (by decide) (by decide) rfl rfl
  exact ⟨h.1, h.2 "__status"⟩

/-- C10: in create, a field defined in keys wins over the same field in
props, and the six reserved metadata fields overwrite any caller-supplied
value of those names from either source — generated metadata over keys
over props. -/
theorem claim10_create_precedence (ent : EntityState)
    (kf pf : List (String × JsVal)) (audit : JsVal) (env : Env)
    (store : Except DynamoError JsVal) (H R : JsVal)
    (hknd : (kf.map Prod.fst).Nodup) (hpnd : (pf.map Prod.fst).Nodup)
    (hH : Entity.getHashKey ent (.obj kf) = .ok H)
    (hR : Entity.getRangeKey ent (.obj kf) ent.schema.rangeKeyName.isNone = .ok R) :
    (SimpleEntity.create ent (.obj kf) (.obj pf) audit env store).requests =
      [.insert (Entity.initClient ent .undefined .undefined)
        (SimpleEntity.createPayload (.obj pf) (.obj kf)
          (Entity.getUsername ent audit) env)] ∧
    (∀ f v, objLookup kf f = some v → f ∉ reservedMetaFields →
      objLookup (SimpleEntity.createPayload (.obj pf) (.obj kf)
        (Entity.getUsername ent audit) env) f = some v) ∧
    objLookup (SimpleEntity.createPayload (.obj pf) (.obj kf)
      (Entity.getUsername ent audit) env) "__status" = some (.str "active") ∧
    objLookup (SimpleEntity.createPayload (.obj pf) (.obj kf)
      (Entity.getUsername ent audit) env) "__version" = some (.str env.token) ∧
    objLookup (SimpleEntity.createPayload (.obj pf) (.obj kf)
      (Entity.getUsername ent audit) env) "__createdBy" =
        some (Entity.getUsername ent audit) ∧
    objLookup (SimpleEntity.createPayload (.obj pf) (.obj kf)
      (Entity.getUsername ent audit) env) "__createDate" = some (.num env.now) ∧
    objLookup (SimpleEntity.createPayload (.obj pf) (.obj kf)
      (Entity.getUsername ent audit) env) "__updatedBy" =
        some (Entity.getUsername ent audit) ∧
    objLookup (SimpleEntity.createPayload (.obj pf) (.obj kf)
      (Entity.getUsername ent audit) env) "__updateDate" = some (.num env.now) := by
  have hprep := createPrepared_ok audit env
    (show checkObject (JsVal.obj kf) = true from rfl)
    (show checkObject (JsVal.obj pf) = true from rfl) hH hR
  refine ⟨?_, ?_, ?_, ?_, ?_, ?_, ?_, ?_⟩
  · simp [SimpleEntity.create, hprep]
  · intro f v hkv hfres
    rw [createPayload_lookup pf kf (Entity.getUsername ent audit) env f hknd hpnd]
    simp only [reservedMetaFields, List.mem_cons, List.not_mem_nil, or_false,
      not_or] at hfres
    obtain ⟨n1, n2, n3, n4, n5, n6⟩ := hfres
    simp [objLookup, Ne.symm n1, Ne.symm n2, Ne.symm n3, Ne.symm n4, Ne.symm n5,
      Ne.symm n6, hkv]
  · rw [createPayload_lookup pf kf (Entity.getUsername ent audit) env _ hknd hpnd]
    simp [objLookup]
  · rw [createPayload_lookup pf kf (Entity.getUsername ent audit) env _ hknd hpnd]
    simp [objLookup]
  · rw [createPayload_lookup pf kf (Entity.getUsername ent audit) env _ hknd hpnd]
    simp [objLookup]
  · rw [createPayload_lookup pf kf (Entity.getUsername ent audit) env _ hknd hpnd]
    simp [objLookup]
  · rw [createPayload_lookup pf kf (Entity.getUsername ent audit) env _ hknd hpnd]
    simp [objLookup]
  · rw [createPayload_lookup pf kf (Entity.getUsername ent audit) env _ hknd hpnd]
    simp [objLookup]

/-- C10 witness: the caller supplies a colliding `tag` in props and keys
and even a forged `__status`; keys win over props and the generated
metadata wins over both. -/
theorem claim10_witness :
    objLookup (SimpleEntity.createPayload
        (.obj [("tag", .str "fromProps"), ("__status", .str "forged")])
        (.obj [("accountId", .str "acme"), ("entityId", .str "e1"),
          ("tag", .str "fromKeys")])
        (Entity.getUsername testEntity .undefined) testEnv) "tag" =
      some (.str "fromKeys") ∧
    objLookup (SimpleEntity.createPayload
        (.obj [("tag", .str "fromProps"), ("__status", .str "forged")])
        (.obj [("accountId", .str "acme"), ("entityId", .str "e1"),
          ("tag", .str "fromKeys")])
        (Entity.getUsername testEntity .undefined) testEnv) "__status" =
      some (.str "active") := by
  have h := claim10_create_precedence testEntity
    [("accountId", .str "acme"), ("entityId", .str "e1"), ("tag", .str "fromKeys")]
    [("tag", .str "fromProps"), ("__status", .str "forged")]
    .undefined testEnv (.ok (.obj [])) (.str "acme") (.str "e1")
    (by decide) (by decide) rfl rfl
  exact ⟨h.2.1 "tag" (.str "fromKeys") rfl (by decide), h.2.2.1⟩

/-- C6 counterexample: the empty string is a string, yet hash key
extraction raises the `InvalidArgument` error instead of returning it —
refuting the claim that extraction returns the value whenever it is a
string or a number. The repository test suite asserts exactly this
behaviour (the empty string is listed among the invalid hash keys). -/
theorem claim6_counterexample :
    objGetD (.obj [("accountId", .str "")]) testEntity.schema.hashKeyName = .str "" ∧
    Entity.getHashKey testEntity (.obj [("accountId", .str "")]) =
      .error (.argError "Invalid hash key (keys.accountId)") :=
  ⟨rfl, rfl⟩

/-- C6 amended: hash key extraction returns the value stored under the
hash key field if and only if that value is a non-empty string or a
number at least one (the bare validators of the source accept exactly
those); in every other case it raises an `InvalidArgument` error whose
message names the hash key field. -/
theorem claim6_amended_hash_key_validation (ent : EntityState) (keys : JsVal) :
    (∀ v, Entity.getHashKey ent keys = .ok v ↔
      (v = objGetD keys ent.schema.hashKeyName ∧
        ((∃ s, v = .str s ∧ s ≠ "") ∨ (∃ n, v = .num n ∧ 1 ≤ n)))) ∧
    ((¬ ((∃ s, objGetD keys ent.schema.hashKeyName = .str s ∧ s ≠ "") ∨
        (∃ n, objGetD keys ent.schema.hashKeyName = .num n ∧ 1 ≤ n))) →
      Entity.getHashKey ent keys =
        .error (.argError
          ("Invalid hash key (keys." ++ ent.schema.hashKeyName ++ ")"))) := by
  constructor
  · intro v
    unfold Entity.getHashKey
    by_cases hc : (checkString (objGetD keys ent.schema.hashKeyName) 1 ||
        checkNumber (objGetD keys ent.schema.hashKeyName) 1) = true
    · rw [if_pos hc]
      have hval := (keyValid_iff _).mp hc
      simp only [Except.ok.injEq]
      constructor
      · rintro rfl
        exact ⟨rfl, hval⟩
      · rintro ⟨rfl, _⟩
        rfl
    · rw [if_neg hc]
      constructor
      · intro h
        exact Except.noConfusion h
      · rintro ⟨rfl, hv⟩
        exact absurd ((keyValid_iff _).mpr hv) hc
  · intro hinval
    unfold Entity.getHashKey
    rw [if_neg (fun hc => hinval ((keyValid_iff _).mp hc))]

/-- C6 witness: a valid string hash key is returned, and a boolean hash
key raises the named error, through the amended characterization. -/
theorem claim6_witness :
    Entity.getHashKey testEntity testKeys = .ok (.str "acme") ∧
    Entity.getHashKey testEntity (.obj [("accountId", .boolV true)]) =
      .error (.argError
        ("Invalid hash key (keys." ++ testEntity.schema.hashKeyName ++ ")")) := by
  constructor
  · exact ((claim6_amended_hash_key_validation testEntity testKeys).1
      (.str "acme")).mpr ⟨rfl, .inl ⟨"acme", rfl, by decide⟩⟩
  · refine (claim6_amended_hash_key_validation testEntity
      (.obj [("accountId", .boolV true)])).2 ?_
    rintro (⟨s, hs, _⟩ | ⟨n, hn, _⟩)
    · simp [objGetD, objLookup, testEntity, testSchema] at hs
    · simp [objGetD, objLookup, testEntity, testSchema] at hn

/-- C7 counterexample: with a declared range key field and the range key
present as the empty string, extraction raises the `InvalidArgument`
error even though the value is a string — refuting the claim that a
present string value is returned. The repository test suite asserts
exactly this behaviour. -/
theorem claim7_counterexample :
    objGetD (.obj [("accountId", .str "acme"), ("entityId", .str "")]) "entityId" =
      .str "" ∧
    Entity.getRangeKey testEntity
        (.obj [("accountId", .str "acme"), ("entityId", .str "")]) true =
      .error (.argError "Invalid range key (keys.entityId)") :=
  ⟨rfl, rfl⟩

/-- The body of range key extraction once a range key field is declared. -/
theorem getRangeKey_some_eq {ent : EntityState} (keys : JsVal) (b : Bool) {rn : String}
    (hrn : ent.schema.rangeKeyName = some rn) :
    Entity.getRangeKey ent keys b =
      (if ((objGetD keys rn).isUndefined && b) = true then .ok (objGetD keys rn)
       else if (checkString (objGetD keys rn) 1 ||
           checkNumber (objGetD keys rn) 1) = true then .ok (objGetD keys rn)
       else .error (.argError ("Invalid range key (keys." ++ rn ++ ")"))) := by
  unfold Entity.getRangeKey
  rw [hrn]

/-- C7 amended: without a declared range key field extraction returns
undefined with no validation; with one, an absent value passes through as
undefined when `allowUndefined` is set, a present non-empty string or
number at least one is returned, and otherwise (including present empty
strings) an `InvalidArgument` error naming the range key field is
raised. -/
theorem claim7_amended_range_key_validation (ent : EntityState) (keys : JsVal)
    (allowUndefined : Bool) :
    (ent.schema.rangeKeyName = none →
      Entity.getRangeKey ent keys allowUndefined = .ok .undefined) ∧
    (∀ rn, ent.schema.rangeKeyName = some rn →
      (objGetD keys rn = .undefined → allowUndefined = true →
        Entity.getRangeKey ent keys allowUndefined = .ok .undefined) ∧
      (((∃ s, objGetD keys rn = .str s ∧ s ≠ "") ∨
          (∃ n, objGetD keys rn = .num n ∧ 1 ≤ n)) →
        Entity.getRangeKey ent keys allowUndefined = .ok (objGetD keys rn)) ∧
      ((¬ ((∃ s, objGetD keys rn = .str s ∧ s ≠ "") ∨
          (∃ n, objGetD keys rn = .num n ∧ 1 ≤ n))) →
        (objGetD keys rn ≠ .undefined ∨ allowUndefined = false) →
        Entity.getRangeKey ent keys allowUndefined =
          .error (.argError ("Invalid range key (keys." ++ rn ++ ")")))) := by
  constructor
  · intro h
    exact getRangeKey_none h
  · intro rn hrn
    refine ⟨?_, ?_, ?_⟩
    · intro hu hau
      rw [getRangeKey_some_eq keys allowUndefined hrn, hu, hau]
      simp [JsVal.isUndefined]
    · intro hval
      have hc := (keyValid_iff _).mpr hval
      have hu : (objGetD keys rn).isUndefined = false := keyValid_not_undef hc
      rw [getRangeKey_some_eq keys allowUndefined hrn, hu]
      simp only [Bool.false_and, Bool.false_eq_true, if_false]
      rw [if_pos hc]
    · intro hinval hforce
      have hc : ¬ (checkString (objGetD keys rn) 1 ||
          checkNumber (objGetD keys rn) 1) = true :=
        fun hc => hinval ((keyValid_iff _).mp hc)
      have hguard : ((objGetD keys rn).isUndefined && allowUndefined) = false := by
        rcases hforce with hne | hau
        · have hiu : (objGetD keys rn).isUndefined = false := by
            cases hiu : (objGetD keys rn).isUndefined
            · rfl
            · exact absurd ((isUndef_iff _).mp hiu) hne
          rw [hiu]
          rfl
        · rw [hau]
          exact Bool.and_false _
      rw [getRangeKey_some_eq keys allowUndefined hrn, hguard]
      simp only [Bool.false_eq_true, if_false]
      rw [if_neg hc]

/-- C7 witness: all three amended behaviours at concrete inputs — no
declared range key, an absent optional value, a valid present value, and
an absent required value raising the named error. -/
theorem claim7_witness :
    Entity.getRangeKey hashEntity testKeys false = .ok .undefined ∧
    Entity.getRangeKey testEntity (.obj [("accountId", .str "acme")]) true =
      .ok .undefined ∧
    Entity.getRangeKey testEntity testKeys false = .ok (.str "e1") ∧
    Entity.getRangeKey testEntity (.obj [("accountId", .str "acme")]) false =
      .error (.argError ("Invalid range key (keys." ++ "entityId" ++ ")")) := by
  refine ⟨?_, ?_, ?_, ?_⟩
  · exact (claim7_amended_range_key_validation hashEntity testKeys false).1 rfl
  · exact (((claim7_amended_range_key_validation testEntity
      (.obj [("accountId", .str "acme")]) true).2 "entityId" rfl).1) rfl rfl
  · exact (((claim7_amended_range_key_validation testEntity testKeys false).2
      "entityId" rfl).2.1) (.inl ⟨"e1", rfl, by decide⟩)
  · refine (((claim7_amended_range_key_validation testEntity
      (.obj [("accountId", .str "acme")]) false).2 "entityId" rfl).2.2) ?_ (.inr rfl)
    rintro (⟨s, hs, _⟩ | ⟨n, hn, _⟩)
    · simp [objGetD, objLookup] at hs
    · simp [objGetD, objLookup] at hn

/-- The client `list` prepares once validation passes. -/
theorem listPrepared_ok {ent : EntityState} {keys H R : JsVal} (count audit : JsVal)
    (hko : checkObject keys = true)
    (hH : Entity.getHashKey ent keys = .ok H)
    (hR : Entity.getRangeKey ent keys true = .ok R) :
    SimpleEntity.listPrepared ent keys count audit =
      .ok (let client := (Entity.initClient ent H .undefined).havingEq
            (.str "__status") (.str "active")
          let client :=
            if R.isUndefined then client
            else client.resumeWith (converterInputM
              (objSetF (objSetF [] ent.schema.hashKeyName H)
                (ent.schema.rangeKeyName.getD "undefined") R))
          if checkNumber count 1 then client.limitWith count else client) := by
  unfold SimpleEntity.listPrepared
  rw [checkObjectOrThrow_ok hko, initParams_ok hko hH hR]

/-- C8: for every list call on an entity that declares a range key field,
if the keys hold a defined range key value the outgoing query carries a
pagination resume cursor equal to the native encoding of the mapping from
the hash key field name to the hash key and the range key field name to
the range key; if the range key value is undefined or absent, no resume
cursor is attached. -/
theorem claim8_list_resume_token (ent : EntityState) (keys count audit : JsVal)
    (store : Except DynamoError JsVal) (rn : String) (H : JsVal)
    (hrn : ent.schema.rangeKeyName = some rn)
    (hH : Entity.getHashKey ent keys = .ok H) :
    ∀ c, (SimpleEntity.list ent keys count audit store).requests = [.query c] →
      c.resumeToken =
        (if (objGetD keys rn).isUndefined then none
          else some (converterInputM
            (objSetF (objSetF [] ent.schema.hashKeyName H) rn (objGetD keys rn)))) := by
  intro c hreq
  cases hko : checkObject keys with
  | false =>
      simp [SimpleEntity.list, SimpleEntity.listPrepared, checkObjectOrThrow, hko]
        at hreq
  | true =>
      cases hGR : Entity.getRangeKey ent keys true with
      | error err =>
          have hinit : Entity.initParams ent keys "list" audit true = .error err := by
            unfold Entity.initParams
            rw [checkObjectOrThrow_ok hko, hH, hGR]
          simp [SimpleEntity.list, SimpleEntity.listPrepared,
            checkObjectOrThrow_ok hko, hinit] at hreq
      | ok R =>
          have hlist := listPrepared_ok count audit hko hH hGR
          simp only [SimpleEntity.list, hlist] at hreq
          simp only [List.cons.injEq, and_true, StoreAction.query.injEq] at hreq
          subst hreq
          rw [getRangeKey_some_eq keys true hrn] at hGR
          by_cases hu : (objGetD keys rn).isUndefined = true
          · rw [if_pos hu]
            rw [hu] at hGR
            simp only [Bool.true_and, if_true] at hGR
            have hRu : R = objGetD keys rn := by
              cases hGR
              rfl
            by_cases hcnt : checkNumber count 1 = true <;>
              simp [hcnt, hRu, hu]
          · have hu' : (objGetD keys rn).isUndefined = false := by
              cases h : (objGetD keys rn).isUndefined
              · rfl
              · exact absurd h hu
            rw [if_neg hu]
            rw [hu'] at hGR
            simp only [Bool.false_and, Bool.false_eq_true, if_false] at hGR
            by_cases hc : (checkString (objGetD keys rn) 1 ||
                checkNumber (objGetD keys rn) 1) = true
            · rw [if_pos hc] at hGR
              have hRu : R = objGetD keys rn := by
                cases hGR
                rfl
              subst hRu
              by_cases hcnt : checkNumber count 1 = true <;>
                simp [hcnt, hu', hrn]
            · rw [if_neg hc] at hGR
              exact Except.noConfusion hGR

/-- C8 witness: a concrete list with a defined range key attaches the
encoded key pair as the resume cursor. -/
theorem claim8_witness :
    ∃ c, (SimpleEntity.list testEntity testKeys (.num 10) .undefined
        (.ok (.obj []))).requests = [.query c] ∧
      c.resumeToken =
        some (converterInputM
          [("accountId", .str "acme"), ("entityId", .str "e1")]) := by
  have h := claim8_list_resume_token testEntity testKeys (.num 10) .undefined
    (.ok (.obj [])) "entityId" (.str "acme") rfl rfl
  refine ⟨_, rfl, ?_⟩
  have h2 := h _ rfl
  simpa [objGetD, objLookup, JsVal.isUndefined, objSetF, testEntity, testSchema,
    testKeys] using h2

theorem checkObject_iff (v : JsVal) :
    checkObject v = true ↔ ∃ fields, v = .obj fields := by
  cases v <;> simp [checkObject]

theorem checkFunction_iff (v : JsVal) :
    checkFunction v = true ↔ ∃ tag, v = .fnV tag := by
  cases v <;> simp [checkFunction]

/-- The logger-validity reduce never throws — the short-circuiting `&&`
only reads `logger[m]` after `checkObject(logger)` has held — and its
result is true exactly when the accumulator started true and every listed
method reads back as a function. -/
theorem loggerCheckFold_ok (logger : JsVal) (ms : List String) (acc : Bool)
    (hacc : acc = true → checkObject logger = true) :
    ∃ b, loggerCheckFold logger ms acc = .ok b ∧
      (b = true ↔ (acc = true ∧ ∀ m ∈ ms, checkFunction (objGetD logger m) = true)) := by
  induction ms generalizing acc with
  | nil =>
      refine ⟨acc, rfl, ?_⟩
      simp
  | cons m ms ih =>
      by_cases ha : acc = true
      · have hobj := hacc ha
        have hjs : jsGetProp logger m = .ok (objGetD logger m) := by
          obtain ⟨fields, rfl⟩ := (checkObject_iff logger).mp hobj
          rfl
        obtain ⟨b, hb, hiff⟩ := ih (checkFunction (objGetD logger m)) (fun _ => hobj)
        refine ⟨b, ?_, ?_⟩
        · rw [show loggerCheckFold logger (m :: ms) acc =
              (if acc = true then
                match jsGetProp logger m with
                | .error e => .error e
                | .ok v => loggerCheckFold logger ms (checkFunction v)
              else loggerCheckFold logger ms false) from rfl]
          rw [if_pos ha, hjs]
          exact hb
        · rw [hiff]
          subst ha
          simp [List.forall_mem_cons, and_assoc]
      · have ha' : acc = false := by
          cases acc
          · rfl
          · exact absurd rfl ha
        subst ha'
        obtain ⟨b, hb, hiff⟩ := ih false (fun h => Bool.noConfusion h)
        refine ⟨b, ?_, ?_⟩
        · rw [show loggerCheckFold logger (m :: ms) false =
              loggerCheckFold logger ms false from rfl]
          exact hb
        · rw [hiff]
          simp

/-- C9: for every options argument — null, non-object values, or objects
with invalid entries included — the `Entity` constructor completes
without throwing; an invalid username is replaced by `SYSTEM`, an invalid
logger by a freshly created default logger, and invalid `awsRegion` and
`awsCredentials` by undefined. -/
theorem claim9_constructor_total (schema : EntitySchema) (options : JsVal) :
    ∃ st, entityConstructor schema options = .ok st ∧
      ((¬ ∃ s, objGetD options "username" = .str s ∧ s ≠ "") →
        st.username = .str "SYSTEM") ∧
      ((¬ ((∃ fields, objGetD options "logger" = .obj fields) ∧
          ∀ m ∈ LOG_METHODS, ∃ tag,
            objGetD (objGetD options "logger") m = .fnV tag)) →
        st.logger = .defaultLogger) ∧
      ((¬ ∃ s, objGetD options "awsRegion" = .str s ∧ s ≠ "") →
        st.awsRegion = .undefined) ∧
      ((¬ ∃ fields, objGetD options "awsCredentials" = .obj fields) →
        st.awsCredentials = .undefined) := by
  obtain ⟨b, hb, hiff⟩ :=
    loggerCheckFold_ok (objGetD options "logger") LOG_METHODS
      (checkObject (objGetD options "logger")) (fun h => h)
  refine ⟨⟨schema,
    (if checkString (objGetD options "username") 1 then objGetD options "username"
      else .str "SYSTEM"),
    (if checkString (objGetD options "awsRegion") 1 then objGetD options "awsRegion"
      else .undefined),
    (if checkObject (objGetD options "awsCredentials")
      then objGetD options "awsCredentials" else .undefined),
    (if b then LoggerRef.provided (objGetD options "logger")
      else .defaultLogger)⟩, ?_, ?_, ?_, ?_, ?_⟩
  · unfold entityConstructor
    simp only [hb]
  · intro hinval
    have hcs : checkString (objGetD options "username") 1 = false := by
      cases h : checkString (objGetD options "username") 1
      · rfl
      · exact absurd ((checkString_one_iff _).mp h) hinval
    simp [hcs]
  · intro hinval
    have hbf : b = false := by
      cases hbv : b
      · rfl
      · rw [hbv] at hiff
        have hcomp := hiff.mp rfl
        refine absurd ⟨?_, ?_⟩ hinval
        · exact (checkObject_iff _).mp hcomp.1
        · intro m hm
          exact (checkFunction_iff _).mp (hcomp.2 m hm)
    simp [hbf]
  · intro hinval
    have hcs : checkString (objGetD options "awsRegion") 1 = false := by
      cases h : checkString (objGetD options "awsRegion") 1
      · rfl
      · exact absurd ((checkString_one_iff _).mp h) hinval
    simp [hcs]
  · intro hinval
    have hcs : checkObject (objGetD options "awsCredentials") = false := by
      cases h : checkObject (objGetD options "awsCredentials")
      · rfl
      · exact absurd ((checkObject_iff _).mp h) hinval
    simp [hcs]

/-- C9 witness: constructing with a null options value succeeds and every
configuration entry takes its fallback. -/
theorem claim9_witness :
    ∃ st, entityConstructor testSchema .null = .ok st ∧
      st.username = .str "SYSTEM" ∧ st.logger = .defaultLogger ∧
      st.awsRegion = .undefined ∧ st.awsCredentials = .undefined := by
  obtain ⟨st, hok, hu, hl, hr, hc⟩ := claim9_constructor_total testSchema .null
  refine ⟨st, hok, hu ?_, hl ?_, hr ?_, hc ?_⟩
  · rintro ⟨s, hs, _⟩
    simp [objGetD] at hs
  · rintro ⟨⟨fields, hfs⟩, _⟩
    simp [objGetD] at hfs
  · rintro ⟨s, hs, _⟩
    simp [objGetD] at hs
  · rintro ⟨fields, hfs⟩
    simp [objGetD] at hfs

end AwsDynamoDb
